import Mathlib

/-!
# Verification of the `DnsTopCrawler` fetch-and-assemble pipeline

Shallow embedding of `iyp/crawlers/cloudflare/__init__.py` (class
`DnsTopCrawler`): the batch-planning loop, the per-task response
processing (envelope validation, timestamp extraction, positional
demultiplexing, cache writes), and the assembly loop of `run`.

Modelling conventions:
* Python values appearing in API responses are modelled by `Json`;
  the insertion order of a Python `dict` (what `dict.items()` yields) is
  the order of the field list of `Json.obj`.
* Python exceptions are modelled by the `PyErr` enumeration; an
  uncaught exception inside the per-task `try` block is the task's
  failure value.
* A cache file `data_{name}.json` is modelled as the pair
  `(name, content)`; writing the file appends the pair to the cache
  list.  `os.path.exists` for a subject's file is modelled by a
  predicate `cached : String → Bool` supplied to the planner.
* `datetime.strptime` with the fixed format is abstracted as a
  parameter `strptime : String → Option Nat`; `none` models the
  `ValueError` a format mismatch raises (uses of this model quantify
  over `strptime`).
-/

/-- Constant `BATCH_SIZE` from the source: maximum number of domains per request. -/
def BATCH_SIZE : Nat := 10

/-- Constant `TOP_LIMIT` from the source: the `limit` query parameter. -/
def TOP_LIMIT : Nat := 100

/-- JSON values, with object fields kept in insertion order (the order
`dict.items()` iterates in Python). -/
inductive Json where
  | null
  | bool (b : Bool)
  | num (n : Int)
  | str (s : String)
  | arr (elts : List Json)
  | obj (fields : List (String × Json))

/-- Python truthiness (`if not data: ...`) for JSON-decoded values. -/
def Json.truthy : Json → Bool
  | .null => false
  | .bool b => b
  | .num n => n != 0
  | .str s => !s.isEmpty
  | .arr elts => !elts.isEmpty
  | .obj fields => !fields.isEmpty

/-- The batching while-loop of `DnsTopCrawler.fetch` (lines 82-114).
The first list argument is the remaining suffix of `self.names`
(`self.names[i:]`), the second is the accumulated `batch`.  `cached
name` models `os.path.exists(fpath)` for the subject's cache file.
Returns the list of emitted batches (one per issued request), in
order.  Note the loop has no flush after exhaustion: a pending
non-empty `batch` at loop exit is dropped. -/
def fetchPlanAux (cached : String → Bool) (B : Nat) : List String → List String → List (List String)
  | [], _batch => []
  | name :: rest, batch =>
    if cached name then fetchPlanAux cached B rest batch
    else
      let batch' := batch ++ [name]
      if batch'.length < B ∧ rest ≠ [] then fetchPlanAux cached B rest batch'
      else if batch' = [] then []
      else batch' :: fetchPlanAux cached B rest []

/-- The planner as entered from the top of `fetch`: empty initial batch. -/
def fetchPlan (cached : String → Bool) (B : Nat) (names : List String) : List (List String) :=
  fetchPlanAux cached B names []

/-- Instrumented twin of `fetchPlanAux` that reports whether the
`if not batch: break` guard (lines 99-102) is ever taken. -/
def fetchPlanGuardHit (cached : String → Bool) (B : Nat) : List String → List String → Bool
  | [], _batch => false
  | name :: rest, batch =>
    if cached name then fetchPlanGuardHit cached B rest batch
    else
      let batch' := batch ++ [name]
      if batch'.length < B ∧ rest ≠ [] then fetchPlanGuardHit cached B rest batch'
      else if batch' = [] then true
      else fetchPlanGuardHit cached B rest []

/-- The query parameters of the outbound request URL (lines 104-108):
`?limit={TOP_LIMIT}` followed by `&dateRange=7d&domain={domain}` for
each domain of the batch, modelled as the list of query parameters. -/
def urlQueryParams (batch : List String) : List String :=
  batch.foldl (fun ps domain => ps ++ ["dateRange=7d", "domain=" ++ domain])
    ["limit=" ++ toString TOP_LIMIT]

/-- Python exception classes that can escape the statements modelled
here.  `connError` stands for the transport exceptions `query.result()`
raises after exhausting retries, `statusError` for
`requests.HTTPError` from `raise_for_status`, `jsonError` for a JSON
decoding failure of `res.json()`. -/
inductive PyErr where
  | connError
  | statusError
  | jsonError
  | keyError
  | typeError
  | valueError
  | indexError
  | attributeError
deriving DecidableEq

/-- An HTTP response: status code and decoded body (`none` models a
body `res.json()` fails to decode). -/
structure HttpResponse where
  status : Nat
  body : Option Json

/-- One future produced by the planner: `future.domains` is the
batch's ordered subject list; `result` is what `query.result()`
yields (`none` models the transport exception after retries).
`future.fpaths` maps each batch subject to its cache file and is
determined by `domains`, so it is not carried separately. -/
structure FetchQuery where
  domains : List String
  result : Option HttpResponse

/-- Python subscript `j[k]` with a string key: field lookup on a dict
(`KeyError` when absent), `TypeError` on any other value. -/
def getItem (j : Json) (k : String) : Except PyErr Json :=
  match j with
  | .obj fields =>
    match fields.lookup k with
    | some v => .ok v
    | none => .error .keyError
  | _ => .error .typeError

/-- Python subscript `j[0]`: head of a list (`IndexError` when empty),
first character of a string (`IndexError` when empty), `KeyError` on a
dict whose keys are strings, `TypeError` otherwise. -/
def index0 (j : Json) : Except PyErr Json :=
  match j with
  | .arr [] => .error .indexError
  | .arr (x :: _) => .ok x
  | .obj _ => .error .keyError
  | .str s =>
    match s.data with
    | [] => .error .indexError
    | c :: _ => .ok (.str (String.mk [c]))
  | _ => .error .typeError

/-- Subscript chain `data['meta']['dateRange'][0]['endTime']` of line 130. -/
def extractEndTime (data : Json) : Except PyErr Json := do
  let meta ← getItem data "meta"
  let dateRange ← getItem meta "dateRange"
  let first ← index0 dateRange
  getItem first "endTime"

/-- Lines 130-131: extract the end-time string and parse it with
`datetime.strptime`; a non-string value raises `TypeError`, a format
mismatch `ValueError`. -/
def parseModTime (strptime : String → Option Nat) (data : Json) : Except PyErr Nat :=
  match extractEndTime data with
  | .error e => .error e
  | .ok (.str s) =>
    match strptime s with
    | some t => .ok t
    | none => .error .valueError
  | .ok _ => .error .typeError

/-- The exception classes of the `except (KeyError, ValueError,
TypeError)` handler on line 133.  `IndexError` is absent. -/
def caughtTimestampErr : PyErr → Bool
  | .keyError => true
  | .valueError => true
  | .typeError => true
  | _ => false

/-- Lines 127-134: the timestamp block.  When the reference time is
already set, nothing happens; otherwise extraction is attempted, a
success stores the value, an exception of a caught class only logs a
warning, and any other exception propagates out of the task's body. -/
def timestampStep (strptime : String → Option Nat) (refTime : Option Nat) (data : Json) :
    Except PyErr (Option Nat) :=
  match refTime with
  | some t => .ok (some t)
  | none =>
    match parseModTime strptime data with
    | .ok t => .ok (some t)
    | .error e => if caughtTimestampErr e then .ok none else .error e

/-- Lines 136-141: the demultiplexing loop over
`enumerate(data.items())`, starting at index `idx`.  An entry with key
`'meta'` is skipped but still consumes its index; any other entry at
index `idx` is written to the cache file of `query.domains[idx]` with
content `{domain: result}`.  Returns the writes performed, in order,
together with the exception (`IndexError` when `idx` falls outside
`domains`) that aborted the loop, if any: writes performed before the
exception have already happened. -/
def demuxLoop (domains : List String) : Nat → List (String × Json) → List (String × Json) × Option PyErr
  | _, [] => ([], none)
  | idx, (placeholder, result) :: rest =>
    if placeholder = "meta" then demuxLoop domains (idx + 1) rest
    else
      match domains[idx]? with
      | none => ([], some .indexError)
      | some domain =>
        let (ws, e) := demuxLoop domains (idx + 1) rest
        ((domain, Json.obj [(domain, result)]) :: ws, e)

/-- Positional write map of a fully successful demultiplex: the entry
at overall position `i` of the result object (`'meta'` entries counted
in the position) is written for subject `domains[i]`; `'meta'` entries
produce no write. -/
def demuxPositional (domains : List String) (fields : List (String × Json)) :
    List (String × Json) :=
  fields.enum.filterMap fun p =>
    if p.2.1 = "meta" then none
    else (domains[p.1]?).map fun domain => (domain, Json.obj [(domain, p.2.2)])

/-- Outcome of processing one completed query (the body of the `try`
on lines 117-141 plus the `except` on lines 143-145): the cache writes
it performed, the reference time as it stands afterwards, and the
exception that was caught and logged, if any. -/
structure TaskOutcome where
  writes : List (String × Json)
  refTime : Option Nat
  failure : Option PyErr

/-- Lines 116-145, one iteration: process one completed query.
Order of effects matches the source: transport result, status check,
JSON decode, `success` flag, `result` extraction, timestamp block,
demultiplex loop. -/
def processQuery (strptime : String → Option Nat) (refTime : Option Nat) (q : FetchQuery) :
    TaskOutcome :=
  match q.result with
  | none => ⟨[], refTime, some .connError⟩
  | some res =>
    if 400 ≤ res.status then ⟨[], refTime, some .statusError⟩
    else
      match res.body with
      | none => ⟨[], refTime, some .jsonError⟩
      | some body =>
        match getItem body "success" with
        | .error e => ⟨[], refTime, some e⟩
        | .ok successVal =>
          if !successVal.truthy then ⟨[], refTime, some .valueError⟩
          else
            match getItem body "result" with
            | .error e => ⟨[], refTime, some e⟩
            | .ok data =>
              match timestampStep strptime refTime data with
              | .error e => ⟨[], refTime, some e⟩
              | .ok refTime' =>
                match data with
                | .obj fields =>
                  let (ws, e) := demuxLoop q.domains 0 fields
                  ⟨ws, refTime', e⟩
                | _ => ⟨[], refTime', some .attributeError⟩

/-- Mutable state threaded through the `as_completed` loop: the cache
directory contents (file writes append), the reference modification
time, and the failures logged so far (lines 143-145). -/
structure FetchState where
  cache : List (String × Json)
  refTime : Option Nat
  failures : List (List String × PyErr)

/-- Lines 116-145: process the completed queries in completion order.
The claims quantify over the query list, so every completion order is
covered. -/
def processQueries (strptime : String → Option Nat) : FetchState → List FetchQuery → FetchState
  | st, [] => st
  | st, q :: qs =>
    let out := processQuery strptime st.refTime q
    processQueries strptime
      { cache := st.cache ++ out.writes
        refTime := out.refTime
        failures := st.failures ++
          (match out.failure with
           | some e => [(q.domains, e)]
           | none => []) } qs

/-- The cache writes a query's processing performs once the reference
time has been set: determined by the query alone (the timestamp block
is then a no-op, so no state enters the computation). -/
def taskWrites (q : FetchQuery) : List (String × Json) :=
  match q.result with
  | none => []
  | some res =>
    if 400 ≤ res.status then []
    else
      match res.body with
      | none => []
      | some body =>
        match getItem body "success" with
        | .error _ => []
        | .ok successVal =>
          if !successVal.truthy then []
          else
            match getItem body "result" with
            | .error _ => []
            | .ok data =>
              match data with
              | .obj fields => (demuxLoop q.domains 0 fields).1
              | _ => []

/-- The assembly loop of `run` (lines 152-163): iterate the cache
directory's `.json` files (every record this pipeline writes is one),
skip a file whose decoded content is falsy, pass every item of the
content dict to `compute_link`; `.items()` on a non-dict raises
`AttributeError`.  Returns the list of items handed to
`compute_link`, in order; directory iteration order is arbitrary, and
the claims about this loop are order-independent. -/
def assembleLoop : List (String × Json) → Except PyErr (List (String × Json))
  | [] => .ok []
  | (_, content) :: rest =>
    if !content.truthy then assembleLoop rest
    else
      match content with
      | .obj fields => do
        let out ← assembleLoop rest
        .ok (fields ++ out)
      | _ => .error .attributeError

/-! ## Event trace of `run` (for C8) -/

/-- Events of one execution of `DnsTopCrawler.run`, in program order:
a Fetch Task reaching its terminal state inside the `as_completed`
loop (success or logged failure, line 116), a cache file being opened
and read back (line 157), one `compute_link` invocation (line 163),
and the single `map_links` invocation (line 165). -/
inductive Event where
  | taskTerminal (domains : List String)
  | cacheRead (fname : String)
  | computeLink (item : String × Json)
  | mapLinks

def Event.isTaskTerminal : Event → Bool
  | .taskTerminal _ => true
  | _ => false

def Event.isAssemblePhase : Event → Bool
  | .taskTerminal _ => false
  | _ => true

/-- The fetch phase's events: the `for query in as_completed(queries)`
loop finishes only after every dispatched future is terminal, one
iteration per task. -/
def fetchTrace (qs : List FetchQuery) : List Event :=
  qs.map fun q => Event.taskTerminal q.domains

/-- The assembly phase's events (lines 152-163): each cache file is
read, and when its decoded content is a truthy dict, each of its
items is passed to `compute_link`. -/
def assembleTrace (cache : List (String × Json)) : List Event :=
  cache.flatMap fun r =>
    Event.cacheRead r.1 ::
      (match r.2 with
       | Json.obj fields =>
         if (Json.obj fields).truthy then fields.map Event.computeLink else []
       | _ => [])

/-- Program-order event trace of `run` (lines 147-165): `fetch` —
whose completion loop ends only when every task is terminal — then
the assembly scan of the cache as left by `fetch`, then `map_links`. -/
def runTrace (strptime : String → Option Nat) (prior : List (String × Json))
    (qs : List FetchQuery) : List Event :=
  fetchTrace qs ++
    (assembleTrace (processQueries strptime ⟨prior, none, []⟩ qs).cache ++
      [Event.mapLinks])

/-! ## Planner lemmas -/

theorem mem_foldl_params (l : List String) :
    ∀ (init : List String) (x : String), x ∈ init →
      x ∈ l.foldl (fun ps dom => ps ++ ["dateRange=7d", "domain=" ++ dom]) init := by
  induction l with
  | nil => intro init x hx; simpa using hx
  | cons d rest ih =>
    intro init x hx
    simp only [List.foldl]
    exact ih _ x (by simp [hx])

theorem domain_param_mem_foldl :
    ∀ (l init : List String) (d : String), d ∈ l →
      ("domain=" ++ d) ∈ l.foldl (fun ps dom => ps ++ ["dateRange=7d", "domain=" ++ dom]) init := by
  intro l
  induction l with
  | nil => simp
  | cons c rest ih =>
    intro init d hd
    simp only [List.foldl]
    rcases List.mem_cons.mp hd with h | h
    · subst h
      exact mem_foldl_params rest _ _ (by simp)
    · exact ih _ d h

theorem domain_param_mem (batch : List String) (d : String) (hd : d ∈ batch) :
    ("domain=" ++ d) ∈ urlQueryParams batch :=
  domain_param_mem_foldl batch _ d hd

theorem fetchPlanGuardHit_false (cached : String → Bool) (B : Nat) :
    ∀ (names batch : List String), fetchPlanGuardHit cached B names batch = false := by
  intro names
  induction names with
  | nil => intro batch; simp [fetchPlanGuardHit]
  | cons name rest ih =>
    intro batch
    simp only [fetchPlanGuardHit]
    split
    · exact ih batch
    · split
      · exact ih _
      · split
        · next h => simp at h
        · exact ih []

theorem fetchPlanAux_mem_ne_nil (cached : String → Bool) (B : Nat) :
    ∀ (names batch : List String), ∀ t ∈ fetchPlanAux cached B names batch, t ≠ [] := by
  intro names
  induction names with
  | nil => intro batch t ht; simp [fetchPlanAux] at ht
  | cons name rest ih =>
    intro batch t ht
    simp only [fetchPlanAux] at ht
    split at ht
    · exact ih batch t ht
    · split at ht
      · exact ih _ t ht
      · split at ht
        · simp at ht
        · rcases List.mem_cons.mp ht with h | h
          · subst h; simp
          · exact ih [] t h

theorem fetchPlanAux_mem_subjects (cached : String → Bool) (B : Nat) :
    ∀ (names batch : List String), ∀ t ∈ fetchPlanAux cached B names batch,
      ∀ x ∈ t, x ∈ batch ∨ (cached x = false ∧ x ∈ names) := by
  intro names
  induction names with
  | nil => intro batch t ht; simp [fetchPlanAux] at ht
  | cons name rest ih =>
    intro batch t ht x hx
    simp only [fetchPlanAux] at ht
    split at ht
    · rcases ih batch t ht x hx with h | ⟨h1, h2⟩
      · exact Or.inl h
      · exact Or.inr ⟨h1, List.mem_cons_of_mem _ h2⟩
    · next hcache =>
      split at ht
      · rcases ih _ t ht x hx with h | ⟨h1, h2⟩
        · rcases List.mem_append.mp h with h | h
          · exact Or.inl h
          · simp only [List.mem_singleton] at h
            subst h
            exact Or.inr ⟨by simpa using hcache, List.mem_cons_self _ _⟩
        · exact Or.inr ⟨h1, List.mem_cons_of_mem _ h2⟩
      · split at ht
        · simp at ht
        · rcases List.mem_cons.mp ht with h | h
          · subst h
            rcases List.mem_append.mp hx with h | h
            · exact Or.inl h
            · simp only [List.mem_singleton] at h
              subst h
              exact Or.inr ⟨by simpa using hcache, List.mem_cons_self _ _⟩
          · rcases ih [] t h x hx with h' | ⟨h1, h2⟩
            · simp at h'
            · exact Or.inr ⟨h1, List.mem_cons_of_mem _ h2⟩

/-! ## Claim theorems about the planner (C10, C4, C2) -/

/-- C10: in the batching loop of `DnsTopCrawler.fetch`, whenever
control reaches the emission point the accumulated batch contains at
least one Subject, so the explicit empty-batch guard branch
(`if not batch: break`) is unreachable, and every outbound request URL
carries at least one `domain` query parameter. -/
theorem empty_batch_guard_unreachable (cached : String → Bool) (B : Nat)
    (names batch : List String) :
    fetchPlanGuardHit cached B names batch = false ∧
    ∀ t ∈ fetchPlanAux cached B names batch,
      t ≠ [] ∧ ∃ d ∈ t, ("domain=" ++ d) ∈ urlQueryParams t := by
  refine ⟨fetchPlanGuardHit_false cached B names batch, ?_⟩
  intro t ht
  have hne := fetchPlanAux_mem_ne_nil cached B names batch t ht
  refine ⟨hne, ?_⟩
  obtain ⟨d, rest, rfl⟩ := List.exists_cons_of_ne_nil hne
  exact ⟨d, List.mem_cons_self _ _, domain_param_mem _ d (List.mem_cons_self _ _)⟩

theorem empty_batch_guard_unreachable_witness :
    fetchPlanGuardHit (fun _ => false) 2 ["a", "b", "c"] [] = false ∧
    ["a", "b"] ≠ [] ∧
    ∃ d ∈ ["a", "b"], ("domain=" ++ d) ∈ urlQueryParams ["a", "b"] := by
  have h := empty_batch_guard_unreachable (fun _ => false) 2 ["a", "b", "c"] []
  exact ⟨h.1, h.2 ["a", "b"] (by decide)⟩

/-- C4: a Subject whose Cache Record already exists when
`DnsTopCrawler.fetch` plans its batches is contained in no emitted
Fetch Task: the planner skips it before batching. -/
theorem cached_subject_never_requested (cached : String → Bool) (B : Nat)
    (names : List String) (name : String) (h : cached name = true) :
    ∀ t ∈ fetchPlan cached B names, name ∉ t := by
  intro t ht hmem
  rcases fetchPlanAux_mem_subjects cached B names [] t ht name hmem with h' | ⟨h1, _⟩
  · simp at h'
  · rw [h] at h1
    exact absurd h1 (by simp)

theorem cached_subject_never_requested_witness :
    (fun n => n == "b") "b" = true ∧
    ∀ t ∈ fetchPlan (fun n => n == "b") 2 ["a", "b", "c"], "b" ∉ t :=
  ⟨by decide, cached_subject_never_requested (fun n => n == "b") 2 ["a", "b", "c"] "b" (by decide)⟩

/-- C2 (code evaluated at the failing input): with working set
`["a", "b"]`, where only `"b"` has a Cache Record, the planner of
`DnsTopCrawler.fetch` emits no Fetch Task at all, although `"a"` is
uncached: its pending batch is dropped when the loop exhausts the
input on trailing cache-skipped Subjects. -/
theorem uncached_subject_dropped_at_exhaustion :
    fetchPlan (fun n => n == "b") 10 ["a", "b"] = [] ∧
    (fun n => n == "b") "a" = false := by decide

/-! ## Chunking behaviour with no pre-existing cache records -/

theorem fetchPlanAux_uncached_unfold (cached : String → Bool) (B : Nat) :
    ∀ (names batch : List String), (∀ x ∈ names, cached x = false) →
      batch.length < B → names ≠ [] →
      fetchPlanAux cached B names batch =
        (batch ++ names.take (B - batch.length)) ::
          fetchPlanAux cached B (names.drop (B - batch.length)) [] := by
  intro names
  induction names with
  | nil => intro batch _ _ h; exact absurd rfl h
  | cons name rest ih =>
    intro batch hc hlen _
    have hname : cached name = false := hc name (List.mem_cons_self _ _)
    simp only [fetchPlanAux]
    rw [if_neg (by simp [hname])]
    by_cases hcond : (batch ++ [name]).length < B ∧ rest ≠ []
    · rw [if_pos hcond]
      rw [ih (batch ++ [name]) (fun x hx => hc x (List.mem_cons_of_mem _ hx)) hcond.1 hcond.2]
      have h1 : B - batch.length = (B - (batch ++ [name]).length) + 1 := by
        simp only [List.length_append, List.length_singleton]
        omega
      rw [h1]
      simp [List.take_succ_cons, List.drop_succ_cons, List.append_assoc]
    · rw [if_neg hcond]
      rw [if_neg (by simp)]
      rcases not_and_or.mp hcond with h | h
      · have hBeq : batch.length + 1 = B := by
          simp only [List.length_append, List.length_singleton] at h
          omega
        have hk : B - batch.length = 1 := by omega
        rw [hk]
        simp
      · have hrest : rest = [] := not_not.mp h
        subst hrest
        have h1 : 1 ≤ B - batch.length := by omega
        have htake : [name].take (B - batch.length) = [name] :=
          List.take_of_length_le (by simpa using h1)
        have hdrop : [name].drop (B - batch.length) = [] :=
          List.drop_eq_nil_of_le (by simpa using h1)
        rw [htake, hdrop]

theorem fetchPlan_uncached_cons (cached : String → Bool) (B : Nat) (hB : 0 < B)
    (names : List String) (hc : ∀ x ∈ names, cached x = false) (hne : names ≠ []) :
    fetchPlan cached B names =
      names.take B :: fetchPlan cached B (names.drop B) := by
  unfold fetchPlan
  have h := fetchPlanAux_uncached_unfold cached B names [] hc (by simpa using hB) hne
  simpa using h

theorem div_ceil_step (N B : Nat) (hB : 0 < B) (hN : 1 ≤ N) :
    (N + B - 1) / B = ((N - B) + B - 1) / B + 1 := by
  by_cases hNB : N ≤ B
  · have h0 : N - B = 0 := by omega
    rw [h0]
    have hsmall : (B - 1) / B = 0 := Nat.div_eq_of_lt (by omega)
    rw [Nat.zero_add, hsmall]
    exact Nat.div_eq_of_lt_le (by omega) (by omega)
  · have heq : N + B - 1 = ((N - B) + B - 1) + B := by omega
    rw [heq, Nat.add_div_right _ hB]

/-- C5: with no pre-existing Cache Records, the planner of
`DnsTopCrawler.fetch` emits exactly `⌈N/B⌉` Fetch Tasks for a working
set of size `N` and maximum batch size `B`; every batch is non-empty
and of size at most `B`, and every batch except possibly the last has
size exactly `B`. -/
theorem batch_plan_complete (cached : String → Bool) (B : Nat) (hB : 0 < B)
    (names : List String) (hc : ∀ x ∈ names, cached x = false) :
    (fetchPlan cached B names).length = (names.length + B - 1) / B ∧
    (∀ t ∈ fetchPlan cached B names, t ≠ [] ∧ t.length ≤ B) ∧
    (∀ t ∈ (fetchPlan cached B names).dropLast, t.length = B) := by
  suffices H : ∀ n (l : List String), l.length = n → (∀ x ∈ l, cached x = false) →
      (fetchPlan cached B l).length = (l.length + B - 1) / B ∧
      (∀ t ∈ fetchPlan cached B l, t ≠ [] ∧ t.length ≤ B) ∧
      (∀ t ∈ (fetchPlan cached B l).dropLast, t.length = B) by
    exact H names.length names rfl hc
  intro n
  induction n using Nat.strong_induction_on with
  | _ n ih =>
    intro l hlen hcl
    match l with
    | [] =>
      refine ⟨by simp [fetchPlan, fetchPlanAux, Nat.div_eq_of_lt (by omega : B - 1 < B)], ?_, ?_⟩
      · intro t ht; simp [fetchPlan, fetchPlanAux] at ht
      · intro t ht; simp [fetchPlan, fetchPlanAux] at ht
    | name :: rest =>
      have hcons := fetchPlan_uncached_cons cached B hB (name :: rest) hcl (by simp)
      have hdroplen : ((name :: rest).drop B).length < n := by
        subst hlen
        simp only [List.length_drop, List.length_cons]
        omega
      have hcdrop : ∀ x ∈ (name :: rest).drop B, cached x = false := fun x hx =>
        hcl x (List.mem_of_mem_drop hx)
      obtain ⟨ihl, ihm, ihd⟩ := ih _ hdroplen ((name :: rest).drop B) rfl hcdrop
      refine ⟨?_, ?_, ?_⟩
      · rw [hcons]
        simp only [List.length_cons, ihl, List.length_drop, List.length_cons]
        have := div_ceil_step (rest.length + 1) B hB (by omega)
        omega
      · rw [hcons]
        intro t ht
        rcases List.mem_cons.mp ht with h | h
        · subst h
          constructor
          · match B, hB with
            | B' + 1, _ => simp [List.take_succ_cons]
          · simp only [List.length_take]
            exact Nat.min_le_left B (name :: rest).length
        · exact ihm t h
      · rw [hcons]
        intro t ht
        rcases hplan : fetchPlan cached B ((name :: rest).drop B) with _ | ⟨y, ys⟩
        · rw [hplan] at ht
          simp at ht
        · rw [hplan, List.dropLast_cons₂] at ht
          have hBle : B ≤ (name :: rest).length := by
            by_contra hlt
            have hdnil : (name :: rest).drop B = [] := List.drop_eq_nil_of_le (by omega)
            rw [hdnil] at hplan
            simp [fetchPlan, fetchPlanAux] at hplan
          rcases List.mem_cons.mp ht with h | h
          · subst h
            rw [List.length_take]
            exact min_eq_left hBle
          · rw [← hplan] at h
            exact ihd t h

theorem batch_plan_complete_witness :
    (0 < 2 ∧ ∀ x ∈ ["a", "b", "c"], (fun _ => false : String → Bool) x = false) ∧
    (fetchPlan (fun _ => false) 2 ["a", "b", "c"]).length =
      (["a", "b", "c"].length + 2 - 1) / 2 :=
  ⟨⟨by decide, by decide⟩,
    (batch_plan_complete (fun _ => false) 2 (by decide) ["a", "b", "c"] (by decide)).1⟩

/-! ## Demultiplexing lemmas -/

theorem demuxLoop_ok_eq (domains : List String) :
    ∀ (fields : List (String × Json)) (idx : Nat) (ws : List (String × Json)),
      demuxLoop domains idx fields = (ws, none) →
      ws = (fields.enumFrom idx).filterMap fun p =>
        if p.2.1 = "meta" then none
        else (domains[p.1]?).map fun d => (d, Json.obj [(d, p.2.2)]) := by
  intro fields
  induction fields with
  | nil =>
    intro idx ws h
    simp only [demuxLoop, Prod.mk.injEq] at h
    simp [← h.1]
  | cons hd tl ih =>
    intro idx ws h
    obtain ⟨placeholder, result⟩ := hd
    simp only [demuxLoop] at h
    by_cases hm : placeholder = "meta"
    · rw [if_pos hm] at h
      rw [ih (idx + 1) ws h]
      simp [List.enumFrom, hm]
    · rw [if_neg hm] at h
      cases hidx : domains[idx]? with
      | none =>
        rw [hidx] at h
        simp at h
      | some d =>
        rw [hidx] at h
        rcases hrec : demuxLoop domains (idx + 1) tl with ⟨ws', e'⟩
        rw [hrec] at h
        simp only [Prod.mk.injEq] at h
        obtain ⟨hws, he⟩ := h
        subst he
        rw [← hws, ih (idx + 1) ws' hrec]
        simp [List.enumFrom, hm, hidx]

theorem demuxLoop_error_eq (domains : List String) :
    ∀ (fields : List (String × Json)) (idx : Nat) (ws : List (String × Json)) (e : PyErr),
      demuxLoop domains idx fields = (ws, some e) → e = PyErr.indexError := by
  intro fields
  induction fields with
  | nil =>
    intro idx ws e h
    simp [demuxLoop] at h
  | cons hd tl ih =>
    intro idx ws e h
    obtain ⟨placeholder, result⟩ := hd
    simp only [demuxLoop] at h
    by_cases hm : placeholder = "meta"
    · rw [if_pos hm] at h
      exact ih (idx + 1) ws e h
    · rw [if_neg hm] at h
      cases hidx : domains[idx]? with
      | none =>
        rw [hidx] at h
        simp only [Prod.mk.injEq] at h
        exact (Option.some.injEq .. ▸ h.2).symm
      | some d =>
        rw [hidx] at h
        rcases hrec : demuxLoop domains (idx + 1) tl with ⟨ws', e'⟩
        rw [hrec] at h
        simp only [Prod.mk.injEq] at h
        obtain ⟨_, he⟩ := h
        subst he
        exact ih (idx + 1) ws' e hrec

/-- C1 (amended): in the demultiplexing loop of `DnsTopCrawler.fetch`,
the entry at overall position `i` of the result object — `'meta'`
entries counted in the position — is written as the Cache Record of
the `i`-th Subject of the batch, and `'meta'` entries produce no
record; the `k`-th non-metadata entry therefore lands on the `k`-th
Subject only when every `'meta'` entry comes after it. -/
theorem demux_writes_by_overall_position (domains : List String)
    (fields : List (String × Json)) (ws : List (String × Json))
    (h : demuxLoop domains 0 fields = (ws, none)) :
    ws = demuxPositional domains fields := by
  have heq := demuxLoop_ok_eq domains fields 0 ws h
  rw [heq]
  simp [demuxPositional, List.enum]

theorem demux_writes_by_overall_position_witness :
    ([("b", Json.obj [("b", Json.num 1)])] : List (String × Json)) =
      demuxPositional ["a", "b"] [("meta", Json.null), ("x", Json.num 1)] :=
  demux_writes_by_overall_position ["a", "b"] [("meta", Json.null), ("x", Json.num 1)]
    [("b", Json.obj [("b", Json.num 1)])] rfl

/-- C1 (counterexample): a validated batch response for the batch
`["a", "b"]` whose result object lists the `'meta'` entry first,
followed by one entity entry.  The task completes without failure, yet
the 0th non-metadata entry is written as the Cache Record of Subject
`"b"` (index 1), not of Subject `"a"` (index 0): the claimed
"k-th non-metadata entry ↦ k-th Subject regardless of where `'meta'`
appears" mapping does not hold. -/
theorem demux_shifts_after_leading_meta :
    (processQuery (fun s => if s = "T" then some 42 else none) none
      ⟨["a", "b"], some ⟨200, some (Json.obj
        [("success", Json.bool true),
         ("result", Json.obj
           [("meta", Json.obj [("dateRange", Json.arr [Json.obj [("endTime", Json.str "T")]])]),
            ("x", Json.num 1)])])⟩⟩).writes =
      [("b", Json.obj [("b", Json.num 1)])] ∧
    (processQuery (fun s => if s = "T" then some 42 else none) none
      ⟨["a", "b"], some ⟨200, some (Json.obj
        [("success", Json.bool true),
         ("result", Json.obj
           [("meta", Json.obj [("dateRange", Json.arr [Json.obj [("endTime", Json.str "T")]])]),
            ("x", Json.num 1)])])⟩⟩).failure = none ∧
    "a" ∉ ((processQuery (fun s => if s = "T" then some 42 else none) none
      ⟨["a", "b"], some ⟨200, some (Json.obj
        [("success", Json.bool true),
         ("result", Json.obj
           [("meta", Json.obj [("dateRange", Json.arr [Json.obj [("endTime", Json.str "T")]])]),
            ("x", Json.num 1)])])⟩⟩).writes.map Prod.fst) :=
  ⟨rfl, rfl, by decide⟩

/-! ## Failure behaviour of one task (C3) -/

/-- A task whose logged failure is anything but an index error writes
no cache record: every failure branch outside the demultiplexing loop
yields an empty write list, and the loop itself only raises
`IndexError`. -/
theorem processQuery_fail_non_index_writes_nothing (strptime : String → Option Nat)
    (refTime : Option Nat) (q : FetchQuery) (e : PyErr)
    (hf : (processQuery strptime refTime q).failure = some e)
    (hne : e ≠ PyErr.indexError) :
    (processQuery strptime refTime q).writes = [] := by
  cases hres : q.result with
  | none => simp [processQuery, hres]
  | some res =>
    by_cases hst : 400 ≤ res.status
    · simp [processQuery, hres, hst]
    · cases hbody : res.body with
      | none => simp [processQuery, hres, hst, hbody]
      | some body =>
        cases hsucc : getItem body "success" with
        | error e2 => simp [processQuery, hres, hst, hbody, hsucc]
        | ok sv =>
          cases htr : sv.truthy with
          | false => simp [processQuery, hres, hst, hbody, hsucc, htr]
          | true =>
            cases hresf : getItem body "result" with
            | error e2 => simp [processQuery, hres, hst, hbody, hsucc, htr, hresf]
            | ok data =>
              cases hts : timestampStep strptime refTime data with
              | error e2 => simp [processQuery, hres, hst, hbody, hsucc, htr, hresf, hts]
              | ok refTime' =>
                cases data with
                | obj fields =>
                  exfalso
                  rcases hdm : demuxLoop q.domains 0 fields with ⟨ws', e'⟩
                  have hfail : (processQuery strptime refTime q).failure = e' := by
                    simp [processQuery, hres, hst, hbody, hsucc, htr, hresf, hts, hdm]
                  rw [hf] at hfail
                  rw [← hfail] at hdm
                  exact hne (demuxLoop_error_eq q.domains fields 0 ws' e hdm)
                | null => simp [processQuery, hres, hst, hbody, hsucc, htr, hresf, hts]
                | bool b => simp [processQuery, hres, hst, hbody, hsucc, htr, hresf, hts]
                | num n => simp [processQuery, hres, hst, hbody, hsucc, htr, hresf, hts]
                | str s => simp [processQuery, hres, hst, hbody, hsucc, htr, hresf, hts]
                | arr elts => simp [processQuery, hres, hst, hbody, hsucc, htr, hresf, hts]

/-- A task whose timestamp step raises an uncaught exception — the
validated-envelope path up to line 134, failing there with any error
class, `IndexError` from an empty date-range list included — writes no
cache record and surfaces exactly that exception as its failure. -/
theorem processQuery_timestamp_error_writes_nothing (strptime : String → Option Nat)
    (refTime : Option Nat) (q : FetchQuery) (res : HttpResponse) (body sv data : Json)
    (e : PyErr) (hres : q.result = some res) (hst : ¬ 400 ≤ res.status)
    (hbody : res.body = some body) (hsucc : getItem body "success" = .ok sv)
    (htr : sv.truthy = true) (hresf : getItem body "result" = .ok data)
    (hts : timestampStep strptime refTime data = .error e) :
    (processQuery strptime refTime q).writes = [] ∧
    (processQuery strptime refTime q).failure = some e := by
  constructor
  · simp [processQuery, hres, hst, hbody, hsucc, htr, hresf, hts]
  · simp [processQuery, hres, hst, hbody, hsucc, htr, hresf, hts]

/-- C3 (amended): a Fetch Task that fails with anything other than an
index error raised inside the demultiplexing loop — transport status
error, decode failure, `success=false` envelope flag, missing
`result`, a non-dict `result`, or an uncaught timestamp-extraction
error (the index error an empty date-range list raises included) —
writes no Cache Record for any of its Subjects; only an index error
raised mid-demultiplex leaves the records already written by that
loop in place.  First conjunct: any failure class other than an index
error writes nothing.  Second conjunct: a failure of the timestamp
step — the only statement before the demultiplexing loop that can
raise an index error — writes nothing either, whatever its error
class. -/
theorem failed_task_writes_nothing_outside_demux (strptime : String → Option Nat)
    (refTime : Option Nat) (q : FetchQuery) :
    (∀ e : PyErr, (processQuery strptime refTime q).failure = some e →
      e ≠ PyErr.indexError → (processQuery strptime refTime q).writes = []) ∧
    (∀ (res : HttpResponse) (body sv data : Json) (e : PyErr),
      q.result = some res → ¬ 400 ≤ res.status → res.body = some body →
      getItem body "success" = .ok sv → sv.truthy = true →
      getItem body "result" = .ok data →
      timestampStep strptime refTime data = .error e →
      (processQuery strptime refTime q).writes = [] ∧
      (processQuery strptime refTime q).failure = some e) :=
  ⟨fun e hf hne =>
    processQuery_fail_non_index_writes_nothing strptime refTime q e hf hne,
   fun res body sv data e hres hst hbody hsucc htr hresf hts =>
    processQuery_timestamp_error_writes_nothing strptime refTime q res body sv data e
      hres hst hbody hsucc htr hresf hts⟩

theorem failed_task_writes_nothing_outside_demux_witness :
    ((processQuery (fun _ => none) none ⟨["w"], some ⟨500, none⟩⟩).failure =
        some PyErr.statusError ∧
      (processQuery (fun _ => none) none ⟨["w"], some ⟨500, none⟩⟩).writes = []) ∧
    ((processQuery (fun _ => some 0) none
        ⟨["q"], some ⟨200, some (Json.obj
          [("success", Json.bool true),
           ("result", Json.obj
             [("e2", Json.num 2),
              ("meta", Json.obj [("dateRange", Json.arr [])])])])⟩⟩).writes = [] ∧
      (processQuery (fun _ => some 0) none
        ⟨["q"], some ⟨200, some (Json.obj
          [("success", Json.bool true),
           ("result", Json.obj
             [("e2", Json.num 2),
              ("meta", Json.obj [("dateRange", Json.arr [])])])])⟩⟩).failure =
        some PyErr.indexError) :=
  ⟨⟨rfl,
    (failed_task_writes_nothing_outside_demux (fun _ => none) none
      ⟨["w"], some ⟨500, none⟩⟩).1 PyErr.statusError rfl (by decide)⟩,
   (failed_task_writes_nothing_outside_demux (fun _ => some 0) none
      ⟨["q"], some ⟨200, some (Json.obj
        [("success", Json.bool true),
         ("result", Json.obj
           [("e2", Json.num 2),
            ("meta", Json.obj [("dateRange", Json.arr [])])])])⟩⟩).2
      ⟨200, some (Json.obj
        [("success", Json.bool true),
         ("result", Json.obj
           [("e2", Json.num 2),
            ("meta", Json.obj [("dateRange", Json.arr [])])])])⟩
      (Json.obj
        [("success", Json.bool true),
         ("result", Json.obj
           [("e2", Json.num 2),
            ("meta", Json.obj [("dateRange", Json.arr [])])])])
      (Json.bool true)
      (Json.obj
        [("e2", Json.num 2),
         ("meta", Json.obj [("dateRange", Json.arr [])])])
      PyErr.indexError rfl (by decide) rfl rfl rfl rfl rfl⟩

/-- C3 (counterexample): a task for the one-Subject batch `["a"]`
whose validated response carries two non-metadata entries.  The
demultiplexing loop writes the Cache Record for `"a"`, then raises an
index error at the second entry: the task fails, yet one Cache Record
of this failed task has been written — not zero partial cache
writes. -/
theorem failed_task_with_partial_writes :
    (processQuery (fun _ => none) none
      ⟨["a"], some ⟨200, some (Json.obj
        [("success", Json.bool true),
         ("result", Json.obj [("x", Json.num 1), ("y", Json.num 2)])])⟩⟩).failure =
      some PyErr.indexError ∧
    (processQuery (fun _ => none) none
      ⟨["a"], some ⟨200, some (Json.obj
        [("success", Json.bool true),
         ("result", Json.obj [("x", Json.num 1), ("y", Json.num 2)])])⟩⟩).writes =
      [("a", Json.obj [("a", Json.num 1)])] ∧
    ([("a", Json.obj [("a", Json.num 1)])] : List (String × Json)) ≠ [] :=
  ⟨rfl, rfl, by simp⟩

/-! ## Isolation of tasks once the reference time is set (C6) -/

theorem processQuery_refTime_set (strptime : String → Option Nat) (t : Nat) (q : FetchQuery) :
    (processQuery strptime (some t) q).writes = taskWrites q ∧
    (processQuery strptime (some t) q).refTime = some t := by
  cases hres : q.result with
  | none => simp [processQuery, taskWrites, hres]
  | some res =>
    by_cases hst : 400 ≤ res.status
    · simp [processQuery, taskWrites, hres, hst]
    · cases hbody : res.body with
      | none => simp [processQuery, taskWrites, hres, hst, hbody]
      | some body =>
        cases hsucc : getItem body "success" with
        | error e2 => simp [processQuery, taskWrites, hres, hst, hbody, hsucc]
        | ok sv =>
          cases htr : sv.truthy with
          | false => simp [processQuery, taskWrites, hres, hst, hbody, hsucc, htr]
          | true =>
            cases hresf : getItem body "result" with
            | error e2 => simp [processQuery, taskWrites, hres, hst, hbody, hsucc, htr, hresf]
            | ok data =>
              cases data with
              | obj fields =>
                rcases hdm : demuxLoop q.domains 0 fields with ⟨ws', e'⟩
                simp [processQuery, taskWrites, hres, hst, hbody, hsucc, htr, hresf,
                  timestampStep, hdm]
              | null =>
                simp [processQuery, taskWrites, hres, hst, hbody, hsucc, htr, hresf,
                  timestampStep]
              | bool b =>
                simp [processQuery, taskWrites, hres, hst, hbody, hsucc, htr, hresf,
                  timestampStep]
              | num n =>
                simp [processQuery, taskWrites, hres, hst, hbody, hsucc, htr, hresf,
                  timestampStep]
              | str s =>
                simp [processQuery, taskWrites, hres, hst, hbody, hsucc, htr, hresf,
                  timestampStep]
              | arr elts =>
                simp [processQuery, taskWrites, hres, hst, hbody, hsucc, htr, hresf,
                  timestampStep]

theorem processQueries_cache_of_refTime_set (strptime : String → Option Nat) (t : Nat) :
    ∀ (qs : List FetchQuery) (st : FetchState), st.refTime = some t →
      (processQueries strptime st qs).cache = st.cache ++ (qs.map taskWrites).flatten ∧
      (processQueries strptime st qs).refTime = some t := by
  intro qs
  induction qs with
  | nil => intro st h; simp [processQueries, h]
  | cons q rest ih =>
    intro st h
    obtain ⟨hw, hr⟩ := processQuery_refTime_set strptime t q
    simp only [processQueries, h]
    obtain ⟨ihc, ihr⟩ := ih
      { cache := st.cache ++ (processQuery strptime (some t) q).writes
        refTime := (processQuery strptime (some t) q).refTime
        failures := st.failures ++
          (match (processQuery strptime (some t) q).failure with
           | some e => [(q.domains, e)]
           | none => []) } hr
    refine ⟨?_, ihr⟩
    rw [ihc]
    simp [hw, List.append_assoc]

/-- C6 (amended): once the reference modification timestamp is set,
the Cache Records that `DnsTopCrawler.fetch`'s completion loop writes
are exactly the concatenation of each task's own writes — a function
`taskWrites` of that task alone — so a failing task contributes only
the records written before its mid-demultiplex error (none when it
fails earlier), no failure aborts the loop, and every other task's
records are exactly as if no failure had occurred.  Before the
timestamp is set this isolation can fail: a later task whose metadata
carries an empty date-range list fails precisely when no earlier task
set the timestamp. -/
theorem failure_isolation_after_timestamp_set (strptime : String → Option Nat) (t : Nat)
    (st : FetchState) (qs : List FetchQuery) (h : st.refTime = some t) :
    (processQueries strptime st qs).cache = st.cache ++ (qs.map taskWrites).flatten ∧
    (processQueries strptime st qs).refTime = some t :=
  processQueries_cache_of_refTime_set strptime t qs st h

theorem failure_isolation_after_timestamp_set_witness :
    (processQueries (fun _ => none) ⟨[], some 7, []⟩
        [⟨["w"], some ⟨500, none⟩⟩,
         ⟨["g"], some ⟨200, some (Json.obj
           [("success", Json.bool true),
            ("result", Json.obj [("e", Json.num 5)])])⟩⟩]).cache =
      [] ++ ([⟨["w"], some ⟨500, none⟩⟩,
              ⟨["g"], some ⟨200, some (Json.obj
                [("success", Json.bool true),
                 ("result", Json.obj [("e", Json.num 5)])])⟩⟩].map taskWrites).flatten :=
  (failure_isolation_after_timestamp_set (fun _ => none) 7 ⟨[], some 7, []⟩
    [⟨["w"], some ⟨500, none⟩⟩,
     ⟨["g"], some ⟨200, some (Json.obj
       [("success", Json.bool true),
        ("result", Json.obj [("e", Json.num 5)])])⟩⟩] rfl).1

/-- C6 (counterexample): two concrete runs of the completion loop.
First: the failing task of the batch `["c"]` (two entries for one
Subject) still contributes the Cache Record `("c", {c: 1})`, so a
failing task does not contribute zero records.  Second: the very same
task `t2` (batch `["q"]`, metadata with an empty date-range list) is
written when it runs after a successful task that set the timestamp,
but fails and is not written when the earlier task failed — one task's
failure changes another task's Cache Records. -/
theorem failure_isolation_counterexample :
    (processQueries (fun _ => none) ⟨[], none, []⟩
        [⟨["g"], some ⟨200, some (Json.obj
           [("success", Json.bool true),
            ("result", Json.obj [("e", Json.num 5)])])⟩⟩,
         ⟨["c"], some ⟨200, some (Json.obj
           [("success", Json.bool true),
            ("result", Json.obj [("x", Json.num 1), ("y", Json.num 2)])])⟩⟩]).cache =
      [("g", Json.obj [("g", Json.num 5)]), ("c", Json.obj [("c", Json.num 1)])] ∧
    (processQueries (fun _ => none) ⟨[], none, []⟩
        [⟨["g"], some ⟨200, some (Json.obj
           [("success", Json.bool true),
            ("result", Json.obj [("e", Json.num 5)])])⟩⟩,
         ⟨["c"], some ⟨200, some (Json.obj
           [("success", Json.bool true),
            ("result", Json.obj [("x", Json.num 1), ("y", Json.num 2)])])⟩⟩]).failures =
      [(["c"], PyErr.indexError)] ∧
    ((processQueries (fun s => if s = "T" then some 42 else none) ⟨[], none, []⟩
        [⟨["p"], some ⟨200, some (Json.obj
           [("success", Json.bool true),
            ("result", Json.obj
              [("e", Json.num 1),
               ("meta", Json.obj
                 [("dateRange", Json.arr [Json.obj [("endTime", Json.str "T")]])])])])⟩⟩,
         ⟨["q"], some ⟨200, some (Json.obj
           [("success", Json.bool true),
            ("result", Json.obj
              [("e2", Json.num 2),
               ("meta", Json.obj [("dateRange", Json.arr [])])])])⟩⟩]).cache.map Prod.fst =
      ["p", "q"]) ∧
    (processQueries (fun s => if s = "T" then some 42 else none) ⟨[], none, []⟩
        [⟨["p"], some ⟨500, none⟩⟩,
         ⟨["q"], some ⟨200, some (Json.obj
           [("success", Json.bool true),
            ("result", Json.obj
              [("e2", Json.num 2),
               ("meta", Json.obj [("dateRange", Json.arr [])])])])⟩⟩]).cache = [] :=
  ⟨rfl, rfl, by decide, rfl⟩

/-! ## Reference modification timestamp (C9) -/

/-- C9 (amended): the reference modification timestamp is assigned at
most once per run — once set it is never overwritten by later
responses — and it is set by the first processed response whose
extraction parses; an extraction failure of one of the caught classes
(missing key, wrong type, unparseable value) only logs a warning and
leaves the timestamp unset without failing the task.  However, when
the metadata's date-range list is present but empty, the subscript
raises an index error that the handler does not catch, and that
failure aborts the whole task. -/
theorem modification_timestamp_policy (strptime : String → Option Nat) :
    (∀ (st : FetchState) (qs : List FetchQuery) (t : Nat), st.refTime = some t →
      (processQueries strptime st qs).refTime = some t) ∧
    (∀ (data : Json) (t : Nat), parseModTime strptime data = .ok t →
      timestampStep strptime none data = .ok (some t)) ∧
    (∀ (data : Json) (e : PyErr), parseModTime strptime data = .error e →
      caughtTimestampErr e = true → timestampStep strptime none data = .ok none) := by
  refine ⟨?_, ?_, ?_⟩
  · intro st qs t h
    exact (processQueries_cache_of_refTime_set strptime t qs st h).2
  · intro data t h
    simp [timestampStep, h]
  · intro data e h hc
    simp [timestampStep, h, hc]

theorem modification_timestamp_policy_witness :
    (processQueries (fun s => if s = "T" then some 42 else none) ⟨[], some 5, []⟩ []).refTime =
      some 5 ∧
    timestampStep (fun s => if s = "T" then some 42 else none) none
      (Json.obj [("meta", Json.obj
        [("dateRange", Json.arr [Json.obj [("endTime", Json.str "T")]])])]) =
      .ok (some 42) ∧
    timestampStep (fun s => if s = "T" then some 42 else none) none Json.null = .ok none :=
  ⟨(modification_timestamp_policy (fun s => if s = "T" then some 42 else none)).1
      ⟨[], some 5, []⟩ [] 5 rfl,
   (modification_timestamp_policy (fun s => if s = "T" then some 42 else none)).2.1
      (Json.obj [("meta", Json.obj
        [("dateRange", Json.arr [Json.obj [("endTime", Json.str "T")]])])]) 42 rfl,
   (modification_timestamp_policy (fun s => if s = "T" then some 42 else none)).2.2
      Json.null PyErr.typeError rfl rfl⟩

/-- C9 (counterexample): a validated response whose metadata carries
an empty `dateRange` list.  Timestamp extraction raises an index
error, which the `except (KeyError, ValueError, TypeError)` handler
does not catch: the whole task fails (its entity entry is never
written), instead of merely logging a warning as the claim states. -/
theorem timestamp_indexError_fails_task :
    processQuery (fun _ => some 0) none
      ⟨["q"], some ⟨200, some (Json.obj
        [("success", Json.bool true),
         ("result", Json.obj
           [("e2", Json.num 2),
            ("meta", Json.obj [("dateRange", Json.arr [])])])])⟩⟩ =
      ⟨[], none, some PyErr.indexError⟩ := rfl

/-! ## Assembly completeness (C7) -/

theorem assembleLoop_mem :
    ∀ (cache : List (String × Json)) (d : String) (p : Json) (out : List (String × Json)),
      (d, Json.obj [(d, p)]) ∈ cache → assembleLoop cache = .ok out → (d, p) ∈ out := by
  intro cache
  induction cache with
  | nil => intro d p out h; simp at h
  | cons hd tl ih =>
    intro d p out hmem hout
    obtain ⟨name, content⟩ := hd
    rcases List.mem_cons.mp hmem with h | h
    · injection h with h1 h2
      subst h1
      subst h2
      simp only [assembleLoop, Json.truthy, List.isEmpty_cons, Bool.not_false] at hout
      cases hrec : assembleLoop tl with
      | error e => rw [hrec] at hout; simp [Bind.bind, Except.bind] at hout
      | ok out' =>
        rw [hrec] at hout
        simp [Bind.bind, Except.bind] at hout
        subst hout
        simp
    · simp only [assembleLoop] at hout
      cases htr : content.truthy with
      | false =>
        rw [htr] at hout
        simp only [Bool.not_false, if_pos] at hout
        exact ih d p out h hout
      | true =>
        rw [htr] at hout
        simp only [Bool.not_true, Bool.false_eq_true, if_neg, if_false] at hout
        cases content with
        | obj fields =>
          cases hrec : assembleLoop tl with
          | error e => rw [hrec] at hout; simp [Bind.bind, Except.bind] at hout
          | ok out' =>
            rw [hrec] at hout
            simp [Bind.bind, Except.bind] at hout
            subst hout
            exact List.mem_append_right _ (ih d p out' h hrec)
        | null => simp at hout
        | bool b => simp at hout
        | num n => simp at hout
        | str s => simp at hout
        | arr elts => simp at hout

/-- C7: the assembly phase of `DnsTopCrawler.run` iterates every
Cache Record present in the cache directory after `fetch` — whether
written by the current run's completed tasks or already present
beforehand (a prior run's record) — and hands the record's
`(subject, payload)` item to `compute_link`: every Subject with a
Cache Record of the pipeline's `{subject: payload}` shape contributes
an entry to the link computation. -/
theorem assembly_covers_every_cache_record (strptime : String → Option Nat)
    (prior : List (String × Json)) (qs : List FetchQuery)
    (d : String) (p : Json) (out : List (String × Json))
    (hmem : (d, Json.obj [(d, p)]) ∈ (processQueries strptime ⟨prior, none, []⟩ qs).cache)
    (hout : assembleLoop ((processQueries strptime ⟨prior, none, []⟩ qs).cache) = .ok out) :
    (d, p) ∈ out :=
  assembleLoop_mem _ d p out hmem hout

theorem assembly_covers_every_cache_record_witness :
    ("z", Json.num 9) ∈ [("z", Json.num 9)] :=
  assembly_covers_every_cache_record (fun _ => none)
    [("z", Json.obj [("z", Json.num 9)])] [] "z" (Json.num 9) [("z", Json.num 9)]
    (List.mem_singleton.mpr rfl) rfl

/-! ## Phase ordering of `run` (C8) -/

theorem fetchTrace_not_assemble (qs : List FetchQuery) :
    ∀ e ∈ fetchTrace qs, e.isAssemblePhase = false := by
  intro e he
  obtain ⟨q, _, rfl⟩ := List.mem_map.mp he
  rfl

theorem suffix_not_terminal (cache : List (String × Json)) :
    ∀ e ∈ assembleTrace cache ++ [Event.mapLinks], e.isTaskTerminal = false := by
  intro e he
  rcases List.mem_append.mp he with h | h
  · obtain ⟨r, _, hr⟩ := List.mem_flatMap.mp h
    obtain ⟨fname, content⟩ := r
    rcases List.mem_cons.mp hr with h' | h'
    · subst h'; rfl
    · cases content with
      | obj fields =>
        simp only at h'
        by_cases hne : (Json.obj fields).truthy = true
        · rw [if_pos hne] at h'
          obtain ⟨item, _, rfl⟩ := List.mem_map.mp h'
          rfl
        · rw [if_neg hne] at h'
          simp at h'
      | null => simp at h'
      | bool b => simp at h'
      | num n => simp at h'
      | str s => simp at h'
      | arr elts => simp at h'
  · simp only [List.mem_singleton] at h
    subst h
    rfl

/-- C8: in every execution of `run`, every task-terminal event of the
fetch phase precedes every assembly-phase event (cache read,
`compute_link` call, `map_links` call) in the trace: the join over
all dispatched tasks is the barrier between the two phases, and no
cache record is read for link computation before it. -/
theorem fetch_join_precedes_assembly (strptime : String → Option Nat)
    (prior : List (String × Json)) (qs : List FetchQuery) (i j : Nat)
    (hi : i < (runTrace strptime prior qs).length)
    (hj : j < (runTrace strptime prior qs).length)
    (hterm : ((runTrace strptime prior qs).get ⟨j, hj⟩).isTaskTerminal = true)
    (hasm : ((runTrace strptime prior qs).get ⟨i, hi⟩).isAssemblePhase = true) :
    j < i := by
  have hjlt : j < (fetchTrace qs).length := by
    by_contra hge
    push_neg at hge
    have hjlen : j - (fetchTrace qs).length <
        (assembleTrace (processQueries strptime ⟨prior, none, []⟩ qs).cache ++
          [Event.mapLinks]).length := by
      have hlen := hj
      rw [show (runTrace strptime prior qs).length =
          (fetchTrace qs).length +
            (assembleTrace (processQueries strptime ⟨prior, none, []⟩ qs).cache ++
              [Event.mapLinks]).length from by
        simp [runTrace]] at hlen
      omega
    have hget : (runTrace strptime prior qs).get ⟨j, hj⟩ =
        (assembleTrace (processQueries strptime ⟨prior, none, []⟩ qs).cache ++
          [Event.mapLinks]).get ⟨j - (fetchTrace qs).length, hjlen⟩ := by
      rw [List.get_eq_getElem, List.get_eq_getElem]
      exact List.getElem_append_right hge ..
    rw [hget] at hterm
    rw [suffix_not_terminal _ _ (List.get_mem _ _ _)] at hterm
    simp at hterm
  have hige : (fetchTrace qs).length ≤ i := by
    by_contra hlt
    push_neg at hlt
    have hget : (runTrace strptime prior qs).get ⟨i, hi⟩ =
        (fetchTrace qs).get ⟨i, hlt⟩ := by
      rw [List.get_eq_getElem, List.get_eq_getElem]
      exact List.getElem_append_left ..
    rw [hget] at hasm
    rw [fetchTrace_not_assemble qs _ (List.get_mem _ _ _)] at hasm
    simp at hasm
  omega

theorem fetch_join_precedes_assembly_witness :
    ((runTrace (fun _ => none) [("z", Json.obj [("z", Json.num 1)])]
        [⟨["g"], none⟩]).get ⟨0, by decide⟩).isTaskTerminal = true ∧
    ((runTrace (fun _ => none) [("z", Json.obj [("z", Json.num 1)])]
        [⟨["g"], none⟩]).get ⟨1, by decide⟩).isAssemblePhase = true ∧
    0 < 1 :=
  ⟨rfl, rfl,
    fetch_join_precedes_assembly (fun _ => none) [("z", Json.obj [("z", Json.num 1)])]
      [⟨["g"], none⟩] 1 0 (by decide) (by decide) rfl rfl⟩
